import Mathlib

/-!
Shallow embedding of the gestures-apps framework core, and proofs about it.

The embedding translates, from the repository sources:
  * `SessionRuntime` (packages/framework/server, SessionRuntime.ts): the
    two-participant session state machine, its message handlers and its
    lifecycle operations.  JavaScript `Map`s are modelled as insertion-ordered
    association lists with JS `Map` update semantics (set replaces in place,
    delete removes, iteration follows insertion order).
  * `InactivityMonitor` (packages/framework/server, InactivityMonitor.ts).
  * The framework client-message schema composition
    (packages/framework/protocol/src/types.ts, createSessionClientMessageSchema).

Messages are modelled as JSON-like objects: lists of (field name, value)
pairs, because the source builds them with object literals and spreads.
Observable behaviour (socket sends, socket closes, app-hook invocations,
tick-loop starts/stops) is collected in an effect trace, in program order.
Serialization is elided: the runtime takes an app serializer/parser pair that
the spec requires to be mutually inverse, so effects carry the message
object itself and inbound raw data is modelled as an already-decoded JSON
value fed to the app parser.
-/

namespace GestureApp

/-- JSON-like values for message payloads. -/
inductive Value where
  | vstr (s : String)
  | vnat (n : Nat)
  | vbool (b : Bool)
  | vlist (l : List String)
  | vobj (fields : List (String × Value))

/-- A JSON-like object: ordered field list. -/
abbrev Obj := List (String × Value)

/-- Association-list lookup (first binding wins, like JS `Map.get`). -/
def alGet {α β : Type} [DecidableEq α] (k : α) : List (α × β) → Option β
  | [] => none
  | (k', v) :: t => if k' = k then some v else alGet k t

/-- Association-list update with JS `Map.set` semantics: replace in place
if the key is present (keeping its position), otherwise append. -/
def alSet {α β : Type} [DecidableEq α] (k : α) (v : β) : List (α × β) → List (α × β)
  | [] => [(k, v)]
  | (k', v') :: t => if k' = k then (k, v) :: t else (k', v') :: alSet k v t

/-- Association-list removal with JS `Map.delete` semantics. -/
def alDel {α β : Type} [DecidableEq α] (k : α) : List (α × β) → List (α × β)
  | [] => []
  | (k', v) :: t => if k' = k then t else (k', v) :: alDel k t

/-- Session lifecycle phase (`SessionPhase` in the protocol package). -/
inductive SessionPhase where
  | waiting
  | playing
  | finished
deriving DecidableEq, Repr

/-- Render a phase the way the server serializes it. -/
def SessionPhase.str : SessionPhase → String
  | .waiting => "waiting"
  | .playing => "playing"
  | .finished => "finished"

/-- Participant state tracked by the framework (interface `Participant`). -/
structure Participant where
  id : String
  number : Nat
  isReady : Bool
  isBot : Bool
  wantsPlayAgain : Bool
deriving DecidableEq, Repr

/-- Message routing targets (`MessageTarget`). -/
inductive MessageTarget where
  | sender
  | opponent
  | all
deriving DecidableEq, Repr

/-- Response to be sent after handling a message (`MessageResponse`). -/
structure MessageResponse where
  target : MessageTarget
  message : Obj

/-- Application hooks (`AppHooks`).  Hook return values are supplied as pure
data; the stateful behaviour of real apps is recovered by letting every
operation of a run take its own hook bundle. -/
structure Hooks where
  generateParticipantId : Nat → String
  onParticipantJoin : Participant → Obj
  onReset : Obj
  onMessage : Obj → String → SessionPhase → List MessageResponse
  onTick : List Obj
  checkSessionEnd : Option (String × Nat)

/-- Session runtime configuration (`SessionRuntimeConfig`). -/
structure SessionRuntimeConfig where
  tickEnabled : Bool
  tickIntervalMs : Nat

/-- The runtime construction parameters: config, hooks and the app-supplied
parser (`parseMessage`).  The serializer is elided, see the file comment. -/
structure Env where
  cfg : SessionRuntimeConfig
  hooks : Hooks
  parser : Obj → Option Obj

/-- Mutable state of a `SessionRuntime`, plus the transport-level set of
currently open connections (`readyState === OPEN`), which the runtime
observes through `conn.readyState`. -/
structure RuntimeState where
  connections : List (Nat × String)
  participants : List (String × Participant)
  phase : SessionPhase
  tickOn : Bool
  openConns : List Nat

/-- The freshly constructed runtime: empty maps, `waiting`, no tick loop. -/
def initState : RuntimeState :=
  { connections := [], participants := [], phase := .waiting, tickOn := false, openConns := [] }

/-- Observable effects, in program order. -/
inductive Effect where
  | send (cid : Nat) (msg : Obj)
  | closeConn (cid : Nat)
  | hookStart
  | hookReset
  | hookMsg (m : Obj) (sender : String) (ph : SessionPhase)
  | startTick
  | stopTick

-- ============ Framework server messages, as built by the source ============

/-- `error` message object. -/
def errorMsg (m : String) : Obj :=
  [("type", .vstr "error"), ("message", .vstr m)]

/-- The `welcome` message: framework fields, then the app welcome data spread
at top level (`...welcomeData` in `handleConnection`). -/
def welcomeMsg (pid : String) (n : Nat) (ph : SessionPhase) (welcomeData : Obj) : Obj :=
  [("type", .vstr "welcome"), ("participantId", .vstr pid),
   ("participantNumber", .vnat n), ("sessionPhase", .vstr ph.str)] ++ welcomeData

/-- `opponent_joined` message object. -/
def opponentJoinedMsg : Obj := [("type", .vstr "opponent_joined")]

/-- `opponent_left` message object. -/
def opponentLeftMsg : Obj := [("type", .vstr "opponent_left")]

/-- `session_started` message object. -/
def sessionStartedMsg : Obj := [("type", .vstr "session_started")]

/-- `session_ended` message object. -/
def sessionEndedMsg (winnerId : String) (winnerNumber : Nat) (reason : String) : Obj :=
  [("type", .vstr "session_ended"), ("winnerId", .vstr winnerId),
   ("winnerNumber", .vnat winnerNumber), ("reason", .vstr reason)]

/-- `play_again_status` message object. -/
def playAgainStatusMsg (votedIds : List String) (total : Nat) : Obj :=
  [("type", .vstr "play_again_status"), ("votedParticipantIds", .vlist votedIds),
   ("totalParticipants", .vnat total)]

/-- `session_reset` message: framework tag, then the app reset data spread. -/
def sessionResetMsg (resetData : Obj) : Obj :=
  ("type", Value.vstr "session_reset") :: resetData

-- ============ Message routing ============

/-- `sendTo`: send only when the connection is open. -/
def sendTo (s : RuntimeState) (cid : Nat) (msg : Obj) : List Effect :=
  if cid ∈ s.openConns then [.send cid msg] else []

/-- `broadcastToAll`: iterate the connection registry in insertion order,
sending to each open connection. -/
def broadcastToAll (s : RuntimeState) (msg : Obj) : List Effect :=
  (s.connections.map Prod.fst).filterMap fun c =>
    if c ∈ s.openConns then some (.send c msg) else none

/-- `broadcastToOthers`: like `broadcastToAll` but skipping the sender. -/
def broadcastToOthers (s : RuntimeState) (senderCid : Nat) (msg : Obj) : List Effect :=
  (s.connections.map Prod.fst).filterMap fun c =>
    if c ≠ senderCid ∧ c ∈ s.openConns then some (.send c msg) else none

/-- `sendResponses`: route each app response per its target. -/
def sendResponses (s : RuntimeState) (senderCid : Nat) (rs : List MessageResponse) : List Effect :=
  (rs.map fun r =>
    match r.target with
    | .sender => sendTo s senderCid r.message
    | .opponent => broadcastToOthers s senderCid r.message
    | .all => broadcastToAll s r.message).flatten

-- ============ Queries ============

/-- The participant numbers currently in use. -/
def numsOf (l : List (String × Participant)) : List Nat :=
  l.map fun kv => kv.2.number

/-- The participant-map keys. -/
def keysOf {β : Type} (l : List (String × β)) : List String :=
  l.map Prod.fst

/-- The connection-map keys. -/
def connKeys (s : RuntimeState) : List Nat :=
  s.connections.map Prod.fst

/-- `getNextParticipantNumber`: lowest vacant number in {1, 2}, else null. -/
def getNextParticipantNumber (s : RuntimeState) : Option Nat :=
  let numbers := numsOf s.participants
  if 1 ∉ numbers then some 1
  else if 2 ∉ numbers then some 2
  else none

/-- `areAllParticipantsReady`: false below two participants, else all ready. -/
def areAllParticipantsReady (s : RuntimeState) : Bool :=
  if s.participants.length < 2 then false
  else s.participants.all fun kv => kv.2.isReady

/-- `getPlayAgainVoters`. -/
def getPlayAgainVoters (s : RuntimeState) : List String :=
  (s.participants.filter fun kv => kv.2.wantsPlayAgain).map fun kv => kv.2.id

/-- `allParticipantsWantPlayAgain`: false when empty, else all voted. -/
def allParticipantsWantPlayAgain (s : RuntimeState) : Bool :=
  if s.participants.length = 0 then false
  else s.participants.all fun kv => kv.2.wantsPlayAgain

-- ============ Lifecycle ============

/-- `stopTickLoop`: clear the interval if it is running. -/
def stopTickLoop (s : RuntimeState) : RuntimeState × List Effect :=
  if s.tickOn then ({ s with tickOn := false }, [.stopTick]) else (s, [])

/-- `checkAndStartSession`: gate on `waiting` and all-ready; then set phase to
`playing`, call `onSessionStart`, broadcast `session_started`, and start the
tick loop when configured. -/
def checkAndStartSession (e : Env) (s : RuntimeState) : RuntimeState × List Effect :=
  if s.phase ≠ .waiting then (s, [])
  else if ¬ areAllParticipantsReady s then (s, [])
  else
    let s' := { s with phase := .playing }
    let eff := Effect.hookStart :: broadcastToAll s' sessionStartedMsg
    if e.cfg.tickEnabled then ({ s' with tickOn := true }, eff ++ [.startTick])
    else (s', eff)

/-- `endSession`: permitted only in `playing`; set `finished`, stop the tick
loop, then broadcast `session_ended`. -/
def endSession (_e : Env) (s : RuntimeState) (winnerId : String) (winnerNumber : Nat)
    (reason : String) : RuntimeState × List Effect :=
  if s.phase ≠ .playing then (s, [])
  else
    let s1 := { s with phase := SessionPhase.finished }
    let (s2, effStop) := stopTickLoop s1
    (s2, effStop ++ broadcastToAll s2 (sessionEndedMsg winnerId winnerNumber reason))

/-- `resetSession`: call `onReset`, reset participant flags (bots stay ready),
set `waiting`, broadcast `session_reset` with the reset data spread. -/
def resetSession (e : Env) (s : RuntimeState) : RuntimeState × List Effect :=
  let resetData := e.hooks.onReset
  let parts := s.participants.map fun kv =>
    (kv.1, { kv.2 with isReady := kv.2.isBot, wantsPlayAgain := false })
  let s' := { s with participants := parts, phase := SessionPhase.waiting }
  (s', Effect.hookReset :: broadcastToAll s' (sessionResetMsg resetData))

-- ============ Framework message handlers ============

/-- `handleParticipantReady`: mark ready, then evaluate the start condition. -/
def handleParticipantReady (e : Env) (s : RuntimeState) (pid : String) :
    RuntimeState × List Effect :=
  match alGet pid s.participants with
  | none => (s, [])
  | some p =>
    checkAndStartSession e
      { s with participants := alSet pid { p with isReady := true } s.participants }

/-- `handleBotIdentify`: mark as bot and ready, then evaluate the start
condition. -/
def handleBotIdentify (e : Env) (s : RuntimeState) (pid : String) :
    RuntimeState × List Effect :=
  match alGet pid s.participants with
  | none => (s, [])
  | some p =>
    checkAndStartSession e
      { s with participants := alSet pid { p with isBot := true, isReady := true } s.participants }

/-- `handlePlayAgainVote`: only in `finished`; record the vote, broadcast the
vote status, and reset when every participant has voted. -/
def handlePlayAgainVote (e : Env) (s : RuntimeState) (pid : String) :
    RuntimeState × List Effect :=
  if s.phase ≠ .finished then (s, [])
  else
    match alGet pid s.participants with
    | none => (s, [])
    | some p =>
      let s1 := { s with participants := alSet pid { p with wantsPlayAgain := true } s.participants }
      let eff1 := broadcastToAll s1 (playAgainStatusMsg (getPlayAgainVoters s1) s1.participants.length)
      if allParticipantsWantPlayAgain s1 then
        let r := resetSession e s1
        (r.1, eff1 ++ r.2)
      else (s1, eff1)

/-- The kind tag of a parsed client message. -/
def typeOf (m : Obj) : Option String :=
  match alGet "type" m with
  | some (.vstr t) => some t
  | _ => none

/-- `handleFrameworkMessage`: dispatch framework kinds (including the legacy
`player_ready` alias); `none` means "delegate to the app". -/
def handleFrameworkMessage (e : Env) (s : RuntimeState) (pid : String) (m : Obj) :
    Option (RuntimeState × List Effect) :=
  match typeOf m with
  | some "participant_ready" => some (handleParticipantReady e s pid)
  | some "player_ready" => some (handleParticipantReady e s pid)
  | some "bot_identify" => some (handleBotIdentify e s pid)
  | some "play_again_vote" => some (handlePlayAgainVote e s pid)
  | _ => none

-- ============ Connection management ============

/-- `handleConnection`: admission.  Returns the new participant, or `none`
when the session is full (error reply, close, no state change). -/
def handleConnection (e : Env) (s : RuntimeState) (cid : Nat) :
    RuntimeState × List Effect × Option Participant :=
  match getNextParticipantNumber s with
  | none =>
    ({ s with openConns := s.openConns.erase cid },
     sendTo s cid (errorMsg "Session is full. Only 2 participants allowed.") ++ [.closeConn cid],
     none)
  | some n =>
    let pid := e.hooks.generateParticipantId n
    let part : Participant :=
      { id := pid, number := n, isReady := false, isBot := false, wantsPlayAgain := false }
    let s1 := { s with participants := alSet pid part s.participants,
                       connections := alSet cid pid s.connections }
    let welcomeData := e.hooks.onParticipantJoin part
    (s1,
     sendTo s1 cid (welcomeMsg pid n s1.phase welcomeData) ++
       broadcastToOthers s1 cid opponentJoinedMsg,
     some part)

/-- `handleDisconnection`: drop the binding and notify the opponent. -/
def handleDisconnection (_e : Env) (s : RuntimeState) (cid : Nat) :
    RuntimeState × List Effect :=
  match alGet cid s.connections with
  | none => (s, [])
  | some pid =>
    let s1 := { s with participants := alDel pid s.participants,
                       connections := alDel cid s.connections }
    (s1, broadcastToOthers s1 cid opponentLeftMsg)

/-- `handleMessage`: ignore unbound connections; parse; error on parse
failure; framework kinds consume the message; otherwise delegate to
`onMessage` and route the responses. -/
def handleMessage (e : Env) (s : RuntimeState) (cid : Nat) (raw : Obj) :
    RuntimeState × List Effect :=
  match alGet cid s.connections with
  | none => (s, [])
  | some pid =>
    match e.parser raw with
    | none => (s, sendTo s cid (errorMsg "Invalid message format"))
    | some m =>
      match handleFrameworkMessage e s pid m with
      | some r => r
      | none =>
        (s, Effect.hookMsg m pid s.phase :: sendResponses s cid (e.hooks.onMessage m pid s.phase))

/-- One firing of the tick interval callback: live only while the interval
is set; gated on `playing`; broadcast `onTick` output; then evaluate
`checkSessionEnd`. -/
def tickFire (e : Env) (s : RuntimeState) : RuntimeState × List Effect :=
  if ¬ s.tickOn then (s, [])
  else if s.phase ≠ .playing then (s, [])
  else
    let eff1 := (e.hooks.onTick.map (broadcastToAll s)).flatten
    match e.hooks.checkSessionEnd with
    | some (wid, wnum) =>
      let r := endSession e s wid wnum "app_condition"
      (r.1, eff1 ++ r.2)
    | none => (s, eff1)

-- ============ Whole-system steps ============

/-- The operations the wrapper can drive the runtime with.  A `connect`
arrives on an open socket; a `disconnect` is preceded by the transport
closing the socket. -/
inductive Op where
  | connect (cid : Nat)
  | disconnect (cid : Nat)
  | message (cid : Nat) (raw : Obj)
  | endSess (winnerId : String) (winnerNumber : Nat) (reason : String)
  | tick
  | stopRt

/-- One step of the whole system. -/
def step (e : Env) (op : Op) (s : RuntimeState) : RuntimeState × List Effect :=
  match op with
  | .connect cid =>
    let s0 := { s with openConns := if cid ∈ s.openConns then s.openConns else cid :: s.openConns }
    let r := handleConnection e s0 cid
    (r.1, r.2.1)
  | .disconnect cid =>
    handleDisconnection e { s with openConns := s.openConns.erase cid } cid
  | .message cid raw => handleMessage e s cid raw
  | .endSess wid wnum reason => endSession e s wid wnum reason
  | .tick => tickFire e s
  | .stopRt => stopTickLoop s

/-- Run a sequence of operations, each with its own hook bundle (modelling
stateful app hooks). -/
def run (l : List (Env × Op)) (s : RuntimeState) : RuntimeState :=
  match l with
  | [] => s
  | (e, op) :: t => run t (step e op s).1

-- ============ Protocol: composed client-message parsing ============

/-- The framework client-message kind tags
(`FrameworkClientMessageSchema`). -/
def frameworkClientTags : List String :=
  ["participant_ready", "bot_identify", "play_again_vote"]

/-- Parsing an (already JSON-decoded) object against
`FrameworkClientMessageSchema`: a discriminated union on `type` of three
object schemas whose only field is the `type` literal; zod's non-strict
objects strip unknown fields. -/
def frameworkClientParse (raw : Obj) : Option Obj :=
  match typeOf raw with
  | some t => if t ∈ frameworkClientTags then some [("type", Value.vstr t)] else none
  | none => none

/-- `createSessionClientMessageSchema`: a `z.union` that tries the framework
schema first and falls back to the app schema. -/
def sessionClientParse (appParse : Obj → Option Obj) (raw : Obj) : Option Obj :=
  match frameworkClientParse raw with
  | some m => some m
  | none => appParse raw

-- ============ Inactivity monitor ============

/-- `InactivityMonitorConfig` (timeout and check interval; the shutdown
callback is modelled by counting its invocations). -/
structure MonitorConfig where
  timeoutMs : Nat
  checkIntervalMs : Nat

/-- State of an `InactivityMonitor`.  `running` models whether the periodic
check interval is set; `fired` counts shutdown-callback invocations. -/
structure Monitor where
  startTime : Nat
  lastActivityTime : Nat
  connectionCount : Nat
  hasEverConnected : Bool
  running : Bool
  fired : Nat

/-- The constructor: initialize the clocks and start checking. -/
def monitorInit (now : Nat) : Monitor :=
  { startTime := now, lastActivityTime := now, connectionCount := 0,
    hasEverConnected := false, running := true, fired := 0 }

/-- `recordActivity`. -/
def recordActivity (now : Nat) (m : Monitor) : Monitor :=
  { m with lastActivityTime := now }

/-- `recordConnection`: adjust the count (floored at zero) and refresh the
activity clock. -/
def recordConnection (connected : Bool) (now : Nat) (m : Monitor) : Monitor :=
  if connected then
    { m with connectionCount := m.connectionCount + 1, hasEverConnected := true,
             lastActivityTime := now }
  else
    { m with connectionCount := m.connectionCount - 1, lastActivityTime := now }

/-- `stop`: clear the check interval (idempotent). -/
def monitorStop (m : Monitor) : Monitor :=
  if m.running then { m with running := false } else m

/-- The periodic `check` body.  It can only run while the interval is set;
on any of the three inactivity conditions it stops the monitor and then
invokes the shutdown callback. -/
def monitorCheck (cfg : MonitorConfig) (now : Nat) (m : Monitor) : Monitor :=
  if ¬ m.running then m
  else
    let timeSinceStart := now - m.startTime
    let timeSinceActivity := now - m.lastActivityTime
    if ¬ m.hasEverConnected ∧ cfg.timeoutMs ≤ timeSinceStart then
      { (monitorStop m) with fired := m.fired + 1 }
    else if m.hasEverConnected ∧ m.connectionCount = 0 ∧ cfg.timeoutMs ≤ timeSinceActivity then
      { (monitorStop m) with fired := m.fired + 1 }
    else if 0 < m.connectionCount ∧ cfg.timeoutMs ≤ timeSinceActivity then
      { (monitorStop m) with fired := m.fired + 1 }
    else m

/-- Events in a monitor's life. -/
inductive MonitorEvent where
  | activity (now : Nat)
  | connection (connected : Bool) (now : Nat)
  | stopEv
  | checkEv (now : Nat)

/-- Apply one event. -/
def monitorStep (cfg : MonitorConfig) (ev : MonitorEvent) (m : Monitor) : Monitor :=
  match ev with
  | .activity now => recordActivity now m
  | .connection c now => recordConnection c now m
  | .stopEv => monitorStop m
  | .checkEv now => monitorCheck cfg now m

/-- Apply a sequence of events. -/
def monitorRun (cfg : MonitorConfig) (evs : List MonitorEvent) (m : Monitor) : Monitor :=
  match evs with
  | [] => m
  | ev :: t => monitorRun cfg t (monitorStep cfg ev m)

/-- The event sequence of a monitor that never records anything: the
periodic checks alone, at times `start + C, start + 2C, …, start + nC`. -/
def quietChecks (start c n : Nat) : List MonitorEvent :=
  (List.range n).map fun k => .checkEv (start + (k + 1) * c)

/-- A quiet monitor run: construction at `start`, then `n` periodic checks
with no recorded activity, connection or disconnection. -/
def quietRun (cfg : MonitorConfig) (start n : Nat) : Monitor :=
  monitorRun cfg (quietChecks start cfg.checkIntervalMs n) (monitorInit start)

/-- Allowed phase transitions: stutter, or one of the three lifecycle
edges. -/
def PhaseStep (a b : SessionPhase) : Prop :=
  a = b ∨ (a = .waiting ∧ b = .playing) ∨ (a = .playing ∧ b = .finished) ∨
    (a = .finished ∧ b = .waiting)

/-- Participant-number well-formedness: the numbers in use are pairwise
distinct and drawn from {1, 2}. -/
def NumsInv (s : RuntimeState) : Prop :=
  (numsOf s.participants).Nodup ∧ ∀ n ∈ numsOf s.participants, n = 1 ∨ n = 2

/-- The intermediate state of `handlePlayAgainVote` after recording the
vote and before the status broadcast. -/
def voteUpd (s : RuntimeState) (pid : String) (p : Participant) : RuntimeState :=
  { s with participants := alSet pid { p with wantsPlayAgain := true } s.participants }

/-- The intermediate state of `handleParticipantReady` after setting the
ready flag and before the start-condition check. -/
def readyUpd (s : RuntimeState) (pid : String) (p : Participant) : RuntimeState :=
  { s with participants := alSet pid { p with isReady := true } s.participants }

/-- The intermediate state of `handleBotIdentify` after setting the bot and
ready flags and before the start-condition check. -/
def botUpd (s : RuntimeState) (pid : String) (p : Participant) : RuntimeState :=
  { s with participants :=
      alSet pid { p with isBot := true, isReady := true } s.participants }

-- ============ Concrete fixtures (used by witnesses and counterexamples) ============

/-- A minimal app-hook bundle, in the style of the hello-hands app: the
welcome data is a `color` field, the reset data a `message` field. -/
def hooks0 : Hooks :=
  { generateParticipantId := fun n => "hand-" ++ toString n
    onParticipantJoin := fun _ => [("color", .vnat 7)]
    onReset := [("message", .vstr "Ready to wave again!")]
    onMessage := fun _ _ _ => []
    onTick := []
    checkSessionEnd := none }

/-- A concrete environment: tick disabled, permissive parser. -/
def env0 : Env :=
  { cfg := { tickEnabled := false, tickIntervalMs := 16 }, hooks := hooks0,
    parser := fun o => some o }

/-- A concrete app client-message parser (accepts anything). -/
def appParse0 : Obj → Option Obj := fun o => some o

/-- An environment whose parser is the protocol-composed schema: framework
messages first, then the app schema. -/
def envC : Env :=
  { cfg := { tickEnabled := false, tickIntervalMs := 16 }, hooks := hooks0,
    parser := sessionClientParse appParse0 }

/-- Participant 1 of the concrete fixtures. -/
def part1 : Participant :=
  { id := "p1", number := 1, isReady := true, isBot := false, wantsPlayAgain := false }

/-- Participant 2 of the concrete fixtures. -/
def part2 : Participant :=
  { id := "p2", number := 2, isReady := true, isBot := true, wantsPlayAgain := false }

/-- A full session: both slots taken, both connections open, plus an open
third socket (cid 5) that is not yet admitted. -/
def sFull : RuntimeState :=
  { connections := [(1, "p1"), (2, "p2")],
    participants := [("p1", part1), ("p2", part2)],
    phase := .finished, tickOn := false, openConns := [1, 2, 5] }

/-- A playing session with the tick loop running, used as a fixture. -/
def sPlaying : RuntimeState :=
  { connections := [(1, "p1"), (2, "p2")],
    participants := [("p1", part1), ("p2", part2)],
    phase := .playing, tickOn := true, openConns := [1, 2] }

/-- The participant p1 after voting to play again. -/
def part1v : Participant := { part1 with wantsPlayAgain := true }

/-- The participant p1 before signalling readiness. -/
def part1u : Participant := { part1 with isReady := false }

/-- A waiting session: the human p1 not yet ready, the bot p2 ready. -/
def sWaiting : RuntimeState :=
  { connections := [(1, "p1"), (2, "p2")],
    participants := [("p1", part1u), ("p2", part2)],
    phase := .waiting, tickOn := false, openConns := [1, 2] }

/-- An empty session with one open, not-yet-admitted socket (cid 7). -/
def sOpen : RuntimeState :=
  { connections := [], participants := [], phase := .waiting, tickOn := false,
    openConns := [7] }

/-- The participant that `env0` admits first into the empty session. -/
def partW : Participant :=
  { id := "hand-1", number := 1, isReady := false, isBot := false, wantsPlayAgain := false }

/-- A finished session in which p1 has voted to play again and p2 has not. -/
def sVoted : RuntimeState :=
  { connections := [(1, "p1"), (2, "p2")],
    participants := [("p1", part1v), ("p2", part2)],
    phase := .finished, tickOn := false, openConns := [1, 2] }

-- ============ Association-list lemmas ============

theorem numsOf_cons (hd : String × Participant) (t : List (String × Participant)) :
    numsOf (hd :: t) = hd.2.number :: numsOf t := rfl

theorem mem_numsOf_alSet {l : List (String × Participant)} {k : String} {v : Participant}
    {x : Nat} (h : x ∈ numsOf (alSet k v l)) : x = v.number ∨ x ∈ numsOf l := by
  induction l with
  | nil => simpa [alSet, numsOf] using h
  | cons hd t ih =>
    obtain ⟨k', v'⟩ := hd
    by_cases hk : k' = k
    · rw [alSet, if_pos hk, numsOf_cons, List.mem_cons] at h
      rcases h with h | h
      · exact Or.inl h
      · exact Or.inr (by rw [numsOf_cons, List.mem_cons]; exact Or.inr h)
    · rw [alSet, if_neg hk, numsOf_cons, List.mem_cons] at h
      rcases h with h | h
      · exact Or.inr (by rw [numsOf_cons, List.mem_cons]; exact Or.inl h)
      · rcases ih h with h' | h'
        · exact Or.inl h'
        · exact Or.inr (by rw [numsOf_cons, List.mem_cons]; exact Or.inr h')

theorem nodup_numsOf_alSet {l : List (String × Participant)} {k : String} {v : Participant}
    (hfresh : v.number ∉ numsOf l) (hnd : (numsOf l).Nodup) :
    (numsOf (alSet k v l)).Nodup := by
  induction l with
  | nil => simp [alSet, numsOf]
  | cons hd t ih =>
    obtain ⟨k', v'⟩ := hd
    rw [numsOf_cons] at hnd hfresh
    rw [List.mem_cons] at hfresh
    push_neg at hfresh
    rcases List.nodup_cons.mp hnd with ⟨hmem, hndt⟩
    by_cases hk : k' = k
    · rw [alSet, if_pos hk, numsOf_cons]
      exact List.nodup_cons.mpr ⟨hfresh.2, hndt⟩
    · rw [alSet, if_neg hk, numsOf_cons]
      refine List.nodup_cons.mpr ⟨?_, ih hfresh.2 hndt⟩
      intro hc
      rcases mem_numsOf_alSet hc with h' | h'
      · exact hfresh.1 h'.symm
      · exact hmem h'

theorem numsOf_alSet_eq {l : List (String × Participant)} {k : String} {p v : Participant}
    (hget : alGet k l = some p) (hnum : v.number = p.number) :
    numsOf (alSet k v l) = numsOf l := by
  induction l with
  | nil => simp [alGet] at hget
  | cons hd t ih =>
    obtain ⟨k', v'⟩ := hd
    by_cases hk : k' = k
    · rw [alGet, if_pos hk] at hget
      rw [alSet, if_pos hk, numsOf_cons, numsOf_cons]
      injection hget with hpv
      rw [hnum, hpv]
    · rw [alGet, if_neg hk] at hget
      rw [alSet, if_neg hk, numsOf_cons, numsOf_cons, ih hget]

theorem mem_numsOf_alDel {l : List (String × Participant)} {k : String} {x : Nat}
    (h : x ∈ numsOf (alDel k l)) : x ∈ numsOf l := by
  induction l with
  | nil => simpa [alDel] using h
  | cons hd t ih =>
    obtain ⟨k', v'⟩ := hd
    by_cases hk : k' = k
    · rw [alDel, if_pos hk] at h
      rw [numsOf_cons, List.mem_cons]
      exact Or.inr h
    · rw [alDel, if_neg hk, numsOf_cons, List.mem_cons] at h
      rw [numsOf_cons, List.mem_cons]
      rcases h with h | h
      · exact Or.inl h
      · exact Or.inr (ih h)

theorem nodup_numsOf_alDel {l : List (String × Participant)} {k : String}
    (hnd : (numsOf l).Nodup) : (numsOf (alDel k l)).Nodup := by
  induction l with
  | nil => simpa [alDel] using hnd
  | cons hd t ih =>
    obtain ⟨k', v'⟩ := hd
    rw [numsOf_cons] at hnd
    rcases List.nodup_cons.mp hnd with ⟨hmem, hndt⟩
    by_cases hk : k' = k
    · rw [alDel, if_pos hk]; exact hndt
    · rw [alDel, if_neg hk, numsOf_cons]
      exact List.nodup_cons.mpr ⟨fun hc => hmem (mem_numsOf_alDel hc), ih hndt⟩

theorem numsOf_map_flags (l : List (String × Participant))
    (f : Participant → Participant) (hf : ∀ p, (f p).number = p.number) :
    numsOf (l.map fun kv => (kv.1, f kv.2)) = numsOf l := by
  induction l with
  | nil => rfl
  | cons hd t ih =>
    rw [List.map_cons, numsOf_cons, numsOf_cons, hf, ih]

theorem length_le_two_of_nodup_mem12 {ns : List Nat} (hnd : ns.Nodup)
    (h12 : ∀ n ∈ ns, n = 1 ∨ n = 2) : ns.length ≤ 2 := by
  match ns, hnd, h12 with
  | [], _, _ => simp
  | [_], _, _ => simp
  | [_, _], _, _ => simp
  | a :: b :: c :: t, hnd, h12 =>
    exfalso
    have hab : a ≠ b := by
      intro h; exact (List.nodup_cons.mp hnd).1 (h ▸ List.mem_cons_self _ _)
    have hac : a ≠ c := by
      intro h
      exact (List.nodup_cons.mp hnd).1 (h ▸ List.mem_cons_of_mem _ (List.mem_cons_self _ _))
    have hbc : b ≠ c := by
      intro h
      exact (List.nodup_cons.mp (List.nodup_cons.mp hnd).2).1 (h ▸ List.mem_cons_self _ _)
    have ha := h12 a (List.mem_cons_self _ _)
    have hb := h12 b (List.mem_cons_of_mem _ (List.mem_cons_self _ _))
    have hc := h12 c (List.mem_cons_of_mem _ (List.mem_cons_of_mem _ (List.mem_cons_self _ _)))
    rcases ha with ha | ha <;> rcases hb with hb | hb <;> rcases hc with hc | hc <;> omega

-- ============ Broadcast lemmas ============

theorem mem_broadcastToAll {s : RuntimeState} {msg : Obj} {c : Nat}
    (h1 : c ∈ connKeys s) (h2 : c ∈ s.openConns) :
    Effect.send c msg ∈ broadcastToAll s msg := by
  unfold broadcastToAll connKeys at *
  rw [List.mem_filterMap]
  exact ⟨c, h1, by rw [if_pos h2]⟩

theorem broadcastToAll_shape {s : RuntimeState} {msg : Obj} {ef : Effect}
    (h : ef ∈ broadcastToAll s msg) : ∃ c, ef = .send c msg := by
  unfold broadcastToAll at h
  rw [List.mem_filterMap] at h
  obtain ⟨c, _, hc⟩ := h
  by_cases ho : c ∈ s.openConns
  · rw [if_pos ho] at hc
    exact ⟨c, (Option.some_inj.mp hc).symm⟩
  · rw [if_neg ho] at hc
    exact absurd hc (by simp)

theorem broadcastToOthers_shape {s : RuntimeState} {cid : Nat} {msg : Obj} {ef : Effect}
    (h : ef ∈ broadcastToOthers s cid msg) : ∃ c, c ≠ cid ∧ ef = .send c msg := by
  unfold broadcastToOthers at h
  rw [List.mem_filterMap] at h
  obtain ⟨c, _, hc⟩ := h
  by_cases ho : c ≠ cid ∧ c ∈ s.openConns
  · rw [if_pos ho] at hc
    exact ⟨c, ho.1, (Option.some_inj.mp hc).symm⟩
  · rw [if_neg ho] at hc
    exact absurd hc (by simp)

theorem sendTo_shape {s : RuntimeState} {cid : Nat} {msg : Obj} {ef : Effect}
    (h : ef ∈ sendTo s cid msg) : ef = .send cid msg := by
  unfold sendTo at h
  by_cases ho : cid ∈ s.openConns
  · rw [if_pos ho] at h
    simpa using h
  · rw [if_neg ho] at h
    simp at h

-- ============ Phase lemmas (one per operation) ============

theorem checkAndStartSession_cases (e : Env) (s : RuntimeState) :
    checkAndStartSession e s = (s, []) ∨
      (s.phase = .waiting ∧ (checkAndStartSession e s).1.phase = .playing ∧
        (checkAndStartSession e s).1.participants = s.participants) := by
  unfold checkAndStartSession
  split
  · exact Or.inl rfl
  · split
    · exact Or.inl rfl
    · rename_i hw _
      right
      refine ⟨by simpa using hw, ?_, ?_⟩ <;> (dsimp only; split <;> rfl)

theorem handleParticipantReady_phase (e : Env) (s : RuntimeState) (pid : String) :
    PhaseStep s.phase (handleParticipantReady e s pid).1.phase := by
  unfold handleParticipantReady
  split
  · exact Or.inl rfl
  · rename_i p _
    rcases checkAndStartSession_cases e
        { s with participants := alSet pid { p with isReady := true } s.participants } with h | h
    · rw [h]; exact Or.inl rfl
    · rw [h.2.1]
      exact Or.inr (Or.inl ⟨h.1, rfl⟩)

theorem handleBotIdentify_phase (e : Env) (s : RuntimeState) (pid : String) :
    PhaseStep s.phase (handleBotIdentify e s pid).1.phase := by
  unfold handleBotIdentify
  split
  · exact Or.inl rfl
  · rename_i p _
    rcases checkAndStartSession_cases e
        { s with participants :=
            alSet pid { p with isBot := true, isReady := true } s.participants } with h | h
    · rw [h]; exact Or.inl rfl
    · rw [h.2.1]
      exact Or.inr (Or.inl ⟨h.1, rfl⟩)

theorem handlePlayAgainVote_phase (e : Env) (s : RuntimeState) (pid : String) :
    PhaseStep s.phase (handlePlayAgainVote e s pid).1.phase := by
  unfold handlePlayAgainVote
  split
  · exact Or.inl rfl
  · rename_i hf
    split
    · exact Or.inl rfl
    · dsimp only
      split
      · unfold resetSession
        dsimp only
        refine Or.inr (Or.inr (Or.inr ⟨?_, rfl⟩))
        by_contra hne
        exact hf (by simpa using hne)
      · exact Or.inl rfl

theorem endSession_phase (e : Env) (s : RuntimeState) (wid : String) (wnum : Nat) (r : String) :
    PhaseStep s.phase (endSession e s wid wnum r).1.phase := by
  unfold endSession
  split
  · exact Or.inl rfl
  · rename_i hp
    have hs : s.phase = .playing := by
      by_contra hne
      exact hp (by simpa using hne)
    unfold stopTickLoop
    dsimp only
    split <;> exact Or.inr (Or.inr (Or.inl ⟨hs, rfl⟩))

theorem tickFire_phase (e : Env) (s : RuntimeState) :
    PhaseStep s.phase (tickFire e s).1.phase := by
  unfold tickFire
  split
  · exact Or.inl rfl
  · split
    · exact Or.inl rfl
    · dsimp only
      split
      · exact endSession_phase e s _ _ _
      · exact Or.inl rfl

theorem handleConnection_phase (e : Env) (s : RuntimeState) (cid : Nat) :
    (handleConnection e s cid).1.phase = s.phase := by
  unfold handleConnection
  split <;> rfl

theorem handleDisconnection_phase (e : Env) (s : RuntimeState) (cid : Nat) :
    (handleDisconnection e s cid).1.phase = s.phase := by
  unfold handleDisconnection
  split <;> rfl

theorem stopTickLoop_phase (s : RuntimeState) : (stopTickLoop s).1.phase = s.phase := by
  unfold stopTickLoop
  split <;> rfl

theorem handleFrameworkMessage_phase (e : Env) (s : RuntimeState) (pid : String) (m : Obj)
    (r : RuntimeState × List Effect) (h : handleFrameworkMessage e s pid m = some r) :
    PhaseStep s.phase r.1.phase := by
  unfold handleFrameworkMessage at h
  split at h
  · rw [← Option.some_inj.mp h]; exact handleParticipantReady_phase e s pid
  · rw [← Option.some_inj.mp h]; exact handleParticipantReady_phase e s pid
  · rw [← Option.some_inj.mp h]; exact handleBotIdentify_phase e s pid
  · rw [← Option.some_inj.mp h]; exact handlePlayAgainVote_phase e s pid
  · exact absurd h (by simp)

theorem handleMessage_phase (e : Env) (s : RuntimeState) (cid : Nat) (raw : Obj) :
    PhaseStep s.phase (handleMessage e s cid raw).1.phase := by
  unfold handleMessage
  split
  · exact Or.inl rfl
  · rename_i pid _
    split
    · exact Or.inl rfl
    · rename_i m _
      rcases hfm : handleFrameworkMessage e s pid m with _ | r
      · simp only [hfm]
        exact Or.inl rfl
      · simp only [hfm]
        exact handleFrameworkMessage_phase e s pid m r hfm

-- ============ Participants lemmas (toward the admission invariant) ============

theorem checkAndStartSession_participants (e : Env) (s : RuntimeState) :
    (checkAndStartSession e s).1.participants = s.participants := by
  rcases checkAndStartSession_cases e s with h | h
  · rw [h]
  · exact h.2.2

theorem getNextParticipantNumber_spec (s : RuntimeState) (n : Nat)
    (h : getNextParticipantNumber s = some n) :
    (n = 1 ∨ n = 2) ∧ n ∉ numsOf s.participants ∧
      (1 ∉ numsOf s.participants → n = 1) ∧ (n = 2 → 1 ∈ numsOf s.participants) := by
  unfold getNextParticipantNumber at h
  by_cases h1 : 1 ∈ numsOf s.participants
  · rw [if_neg (by simpa using h1)] at h
    by_cases h2 : 2 ∈ numsOf s.participants
    · rw [if_neg (by simpa using h2)] at h
      exact absurd h (by simp)
    · rw [if_pos h2] at h
      have hn : n = 2 := (Option.some_inj.mp h).symm
      subst hn
      exact ⟨Or.inr rfl, h2, fun hc => absurd h1 hc, fun _ => h1⟩
  · rw [if_pos h1] at h
    have hn : n = 1 := (Option.some_inj.mp h).symm
    subst hn
    exact ⟨Or.inl rfl, h1, fun _ => rfl, fun hc => absurd hc (by omega)⟩

theorem getNextParticipantNumber_none (s : RuntimeState) :
    getNextParticipantNumber s = none ↔
      1 ∈ numsOf s.participants ∧ 2 ∈ numsOf s.participants := by
  unfold getNextParticipantNumber
  by_cases h1 : 1 ∈ numsOf s.participants
  · rw [if_neg (by simpa using h1)]
    by_cases h2 : 2 ∈ numsOf s.participants
    · rw [if_neg (by simpa using h2)]
      simp [h1, h2]
    · rw [if_pos h2]
      simp [h2]
  · rw [if_pos h1]
    simp [h1]

theorem numsInv_handleParticipantReady (e : Env) (s : RuntimeState) (pid : String)
    (h : NumsInv s) : NumsInv (handleParticipantReady e s pid).1 := by
  unfold handleParticipantReady
  split
  · exact h
  · rename_i p hp
    rw [NumsInv, checkAndStartSession_participants]
    dsimp only
    have hv : numsOf (alSet pid { p with isReady := true } s.participants) =
        numsOf s.participants := numsOf_alSet_eq hp rfl
    rw [hv]
    exact h

theorem numsInv_handleBotIdentify (e : Env) (s : RuntimeState) (pid : String)
    (h : NumsInv s) : NumsInv (handleBotIdentify e s pid).1 := by
  unfold handleBotIdentify
  split
  · exact h
  · rename_i p hp
    rw [NumsInv, checkAndStartSession_participants]
    dsimp only
    have hv : numsOf (alSet pid { p with isBot := true, isReady := true } s.participants) =
        numsOf s.participants := numsOf_alSet_eq hp rfl
    rw [hv]
    exact h

theorem resetSession_participants_nums (e : Env) (s : RuntimeState) :
    numsOf (resetSession e s).1.participants = numsOf s.participants := by
  unfold resetSession
  dsimp only
  exact numsOf_map_flags s.participants
    (fun p => { p with isReady := p.isBot, wantsPlayAgain := false }) (fun _ => rfl)

theorem numsInv_handlePlayAgainVote (e : Env) (s : RuntimeState) (pid : String)
    (h : NumsInv s) : NumsInv (handlePlayAgainVote e s pid).1 := by
  unfold handlePlayAgainVote
  split
  · exact h
  · split
    · exact h
    · rename_i p hp
      dsimp only
      have hs1 : numsOf (alSet pid { p with wantsPlayAgain := true } s.participants) =
          numsOf s.participants := numsOf_alSet_eq hp rfl
      split
      · rw [NumsInv, resetSession_participants_nums]
        dsimp only
        rw [hs1]
        exact h
      · rw [NumsInv]
        dsimp only
        rw [hs1]
        exact h

theorem numsInv_handleConnection (e : Env) (s : RuntimeState) (cid : Nat)
    (h : NumsInv s) : NumsInv (handleConnection e s cid).1 := by
  unfold handleConnection
  rcases hn : getNextParticipantNumber s with _ | n
  · exact h
  · dsimp only
    obtain ⟨h12, hfresh, -, -⟩ := getNextParticipantNumber_spec s n hn
    constructor
    · exact nodup_numsOf_alSet hfresh h.1
    · intro x hx
      rcases mem_numsOf_alSet hx with hx' | hx'
      · rw [hx']; exact h12
      · exact h.2 x hx'

theorem numsInv_handleDisconnection (e : Env) (s : RuntimeState) (cid : Nat)
    (h : NumsInv s) : NumsInv (handleDisconnection e s cid).1 := by
  unfold handleDisconnection
  split
  · exact h
  · dsimp only
    exact ⟨nodup_numsOf_alDel h.1, fun x hx => h.2 x (mem_numsOf_alDel hx)⟩

theorem stopTickLoop_participants (s : RuntimeState) :
    (stopTickLoop s).1.participants = s.participants := by
  unfold stopTickLoop
  split <;> rfl

theorem endSession_participants (e : Env) (s : RuntimeState) (wid : String) (wnum : Nat)
    (r : String) : (endSession e s wid wnum r).1.participants = s.participants := by
  unfold endSession
  split
  · rfl
  · dsimp only
    rw [show (stopTickLoop { s with phase := SessionPhase.finished }).1.participants =
        s.participants from stopTickLoop_participants _]

theorem tickFire_participants (e : Env) (s : RuntimeState) :
    (tickFire e s).1.participants = s.participants := by
  unfold tickFire
  split
  · rfl
  · split
    · rfl
    · dsimp only
      split
      · exact endSession_participants e s _ _ _
      · rfl

theorem numsInv_handleMessage (e : Env) (s : RuntimeState) (cid : Nat) (raw : Obj)
    (h : NumsInv s) : NumsInv (handleMessage e s cid raw).1 := by
  unfold handleMessage
  split
  · exact h
  · rename_i pid _
    split
    · exact h
    · rename_i m _
      rcases hfm : handleFrameworkMessage e s pid m with _ | r
      · simp only [hfm]
        exact h
      · simp only [hfm]
        unfold handleFrameworkMessage at hfm
        split at hfm
        · rw [← Option.some_inj.mp hfm]; exact numsInv_handleParticipantReady e s pid h
        · rw [← Option.some_inj.mp hfm]; exact numsInv_handleParticipantReady e s pid h
        · rw [← Option.some_inj.mp hfm]; exact numsInv_handleBotIdentify e s pid h
        · rw [← Option.some_inj.mp hfm]; exact numsInv_handlePlayAgainVote e s pid h
        · exact absurd hfm (by simp)

theorem numsInv_step (e : Env) (op : Op) (s : RuntimeState) (h : NumsInv s) :
    NumsInv (step e op s).1 := by
  cases op with
  | connect cid => exact numsInv_handleConnection e _ cid h
  | disconnect cid => exact numsInv_handleDisconnection e _ cid h
  | message cid raw => exact numsInv_handleMessage e s cid raw h
  | endSess wid wnum r =>
    show NumsInv (endSession e s wid wnum r).1
    rw [NumsInv, endSession_participants]
    exact h
  | tick =>
    show NumsInv (tickFire e s).1
    rw [NumsInv, tickFire_participants]
    exact h
  | stopRt =>
    show NumsInv (stopTickLoop s).1
    rw [NumsInv, stopTickLoop_participants]
    exact h

theorem numsInv_run (l : List (Env × Op)) (s : RuntimeState) (h : NumsInv s) :
    NumsInv (run l s) := by
  induction l generalizing s with
  | nil => exact h
  | cons hd t ih => exact ih _ (numsInv_step hd.1 hd.2 s h)

theorem numsInv_init : NumsInv initState := by
  constructor <;> simp [initState, numsOf]

theorem participants_length_le_two (s : RuntimeState) (h : NumsInv s) :
    s.participants.length ≤ 2 := by
  have hlen : s.participants.length = (numsOf s.participants).length := by
    rw [numsOf, List.length_map]
  rw [hlen]
  exact length_le_two_of_nodup_mem12 h.1 h.2

-- ============ Claim theorems ============

/-- C2: along every sequence of runtime operations (connections,
disconnections, messages, endSession, tick firings, stop), each step either
leaves the session phase unchanged or moves it along one of the allowed
edges waiting → playing, playing → finished, finished → waiting; an
operation that would need any other transition leaves the phase unchanged. -/
theorem phase_transitions_follow_allowed_edges (e : Env) (op : Op) (s : RuntimeState) :
    PhaseStep s.phase (step e op s).1.phase := by
  cases op with
  | connect cid =>
    show PhaseStep s.phase (handleConnection e _ cid).1.phase
    rw [handleConnection_phase]
    exact Or.inl rfl
  | disconnect cid =>
    show PhaseStep s.phase (handleDisconnection e _ cid).1.phase
    rw [handleDisconnection_phase]
    exact Or.inl rfl
  | message cid raw => exact handleMessage_phase e s cid raw
  | endSess wid wnum r => exact endSession_phase e s wid wnum r
  | tick => exact tickFire_phase e s
  | stopRt =>
    show PhaseStep s.phase (stopTickLoop s).1.phase
    rw [stopTickLoop_phase]
    exact Or.inl rfl

/-- C1: every state reachable from the fresh runtime holds at most two
participants; `handleConnection` assigns the smallest unused participant
number in {1, 2} to each admitted connection; and when both numbers are
taken it sends the session-full error to the (open) connection, closes it,
returns null, and admits nobody. -/
theorem admission_capacity_and_smallest_number :
    (∀ l : List (Env × Op), (run l initState).participants.length ≤ 2) ∧
    (∀ (e : Env) (s : RuntimeState) (cid : Nat) (s' : RuntimeState) (tr : List Effect)
        (p : Participant),
      handleConnection e s cid = (s', tr, some p) →
        (p.number = 1 ∨ p.number = 2) ∧ p.number ∉ numsOf s.participants ∧
          (1 ∉ numsOf s.participants → p.number = 1) ∧
          (p.number = 2 → 1 ∈ numsOf s.participants)) ∧
    (∀ (e : Env) (s : RuntimeState) (cid : Nat),
      1 ∈ numsOf s.participants → 2 ∈ numsOf s.participants → cid ∈ s.openConns →
        handleConnection e s cid =
          ({ s with openConns := s.openConns.erase cid },
           [.send cid (errorMsg "Session is full. Only 2 participants allowed."),
            .closeConn cid],
           none)) := by
  refine ⟨?_, ?_, ?_⟩
  · intro l
    exact participants_length_le_two _ (numsInv_run l initState numsInv_init)
  · intro e s cid s' tr p h
    unfold handleConnection at h
    rcases hn : getNextParticipantNumber s with _ | n
    · rw [hn] at h
      dsimp only at h
      have h3 := congrArg (fun x => x.2.2) h
      simp at h3
    · rw [hn] at h
      dsimp only at h
      have h3 := congrArg (fun x => x.2.2) h
      simp only at h3
      have hp : p.number = n := by
        rw [← Option.some_inj.mp h3]
      rw [hp]
      obtain ⟨h12, hfresh, hsm, h2i⟩ := getNextParticipantNumber_spec s n hn
      exact ⟨h12, hfresh, hsm, h2i⟩
  · intro e s cid h1 h2 ho
    have hn : getNextParticipantNumber s = none := (getNextParticipantNumber_none s).mpr ⟨h1, h2⟩
    unfold handleConnection
    rw [hn]
    dsimp only
    unfold sendTo
    rw [if_pos ho]
    rfl

/-- Witness for C1: at the concrete full session `sFull`, the third
connection (cid 5, open) is rejected: error message, close, null. -/
theorem admission_capacity_and_smallest_number_witness :
    1 ∈ numsOf sFull.participants ∧ 2 ∈ numsOf sFull.participants ∧ 5 ∈ sFull.openConns ∧
      handleConnection env0 sFull 5 =
        ({ sFull with openConns := [1, 2] },
         [.send 5 (errorMsg "Session is full. Only 2 participants allowed."), .closeConn 5],
         none) := by
  refine ⟨by decide, by decide, by decide, ?_⟩
  have h := admission_capacity_and_smallest_number.2.2 env0 sFull 5
    (by decide) (by decide) (by decide)
  rw [h]
  rfl

/-- C10: a raw message arriving on a connection that is not bound to a
participant is ignored entirely: no parsing, no error reply, no app hook,
no state change. -/
theorem unbound_connection_message_ignored (e : Env) (s : RuntimeState) (cid : Nat)
    (raw : Obj) (h : alGet cid s.connections = none) :
    handleMessage e s cid raw = (s, []) := by
  unfold handleMessage
  rw [h]

/-- Witness for C10: a message on the never-admitted connection 3 of the
fresh runtime is dropped without any effect. -/
theorem unbound_connection_message_ignored_witness :
    alGet 3 initState.connections = none ∧
      handleMessage env0 initState 3 [("type", .vstr "wave")] = (initState, []) :=
  ⟨rfl, unbound_connection_message_ignored env0 initState 3 [("type", .vstr "wave")] rfl⟩

/-- C5: `endSession` acts only in `playing`: it stops the tick loop before
any `session_ended` send, sets the phase to `finished`, and broadcasts
`session_ended` carrying reason, winnerId and winnerNumber to every open
registered connection; outside `playing` (in `finished` or `waiting`) it
changes nothing and sends nothing, so a second call is a no-op. -/
theorem endSession_effects_and_idempotence (e : Env) (s : RuntimeState) (wid : String)
    (wnum : Nat) (reason : String) :
    (s.phase = .playing →
      (endSession e s wid wnum reason).1.phase = .finished ∧
      (endSession e s wid wnum reason).1.tickOn = false ∧
      (∀ c, c ∈ connKeys s → c ∈ s.openConns →
        Effect.send c (sessionEndedMsg wid wnum reason) ∈ (endSession e s wid wnum reason).2) ∧
      (∀ i j ci m, (endSession e s wid wnum reason).2.get? i = some .stopTick →
        (endSession e s wid wnum reason).2.get? j = some (.send ci m) → i < j) ∧
      alGet "reason" (sessionEndedMsg wid wnum reason) = some (.vstr reason) ∧
      alGet "winnerId" (sessionEndedMsg wid wnum reason) = some (.vstr wid) ∧
      alGet "winnerNumber" (sessionEndedMsg wid wnum reason) = some (.vnat wnum)) ∧
    (s.phase ≠ .playing → endSession e s wid wnum reason = (s, [])) := by
  constructor
  · intro hp
    have hne : ¬ s.phase ≠ .playing := by simp [hp]
    unfold endSession
    rw [if_neg hne]
    dsimp only
    unfold stopTickLoop
    by_cases ht : s.tickOn
    · rw [if_pos (by simpa using ht)]
      dsimp only
      refine ⟨rfl, rfl, ?_, ?_, by simp [alGet, sessionEndedMsg], by simp [alGet, sessionEndedMsg],
        by simp [alGet, sessionEndedMsg]⟩
      · intro c hc ho
        rw [List.singleton_append, List.mem_cons]
        exact Or.inr (mem_broadcastToAll hc ho)
      · intro i j ci m hi hj
        rw [List.singleton_append] at hi hj
        match j, hj with
        | 0, hj =>
          rw [List.get?_cons_zero] at hj
          exact absurd (Option.some_inj.mp hj) (by simp)
        | j' + 1, hj =>
          match i, hi with
          | 0, _ => omega
          | i' + 1, hi =>
            rw [List.get?_cons_succ] at hi
            have hmem : Effect.stopTick ∈ broadcastToAll
                { s with phase := SessionPhase.finished, tickOn := false }
                (sessionEndedMsg wid wnum reason) := List.get?_mem hi
            obtain ⟨c', hc'⟩ := broadcastToAll_shape hmem
            exact absurd hc' (by simp)
    · rw [if_neg (by simpa using ht)]
      dsimp only
      refine ⟨rfl, by simpa using ht, ?_, ?_, by simp [alGet, sessionEndedMsg],
        by simp [alGet, sessionEndedMsg], by simp [alGet, sessionEndedMsg]⟩
      · intro c hc ho
        rw [List.nil_append]
        exact mem_broadcastToAll hc ho
      · intro i j ci m hi hj
        rw [List.nil_append] at hi
        have hmem : Effect.stopTick ∈ broadcastToAll { s with phase := SessionPhase.finished }
            (sessionEndedMsg wid wnum reason) := List.get?_mem hi
        obtain ⟨c', hc'⟩ := broadcastToAll_shape hmem
        exact absurd hc' (by simp)
  · intro hp
    unfold endSession
    rw [if_pos (by simpa using hp)]

/-- Witness for C5: ending the concrete playing session yields `finished`,
stops the tick loop, and delivers `session_ended` to connection 1; and a
call in the `finished` session `sFull` is a no-op. -/
theorem endSession_effects_and_idempotence_witness :
    sPlaying.phase = .playing ∧
      (endSession env0 sPlaying "p1" 1 "completed").1.phase = .finished ∧
      (endSession env0 sPlaying "p1" 1 "completed").1.tickOn = false ∧
      Effect.send 1 (sessionEndedMsg "p1" 1 "completed") ∈
        (endSession env0 sPlaying "p1" 1 "completed").2 ∧
      sFull.phase ≠ .playing ∧ endSession env0 sFull "p1" 1 "completed" = (sFull, []) := by
  have h := (endSession_effects_and_idempotence env0 sPlaying "p1" 1 "completed").1 rfl
  have h2 := (endSession_effects_and_idempotence env0 sFull "p1" 1 "completed").2 (by decide)
  exact ⟨rfl, h.1, h.2.1, h.2.2.1 1 (by decide) (by decide), by decide, h2⟩

-- ============ Play-again voting (C7, C4) ============

theorem alSet_get_same {α β : Type} [DecidableEq α] {l : List (α × β)} {k : α} {v : β}
    (h : alGet k l = some v) : alSet k v l = l := by
  induction l with
  | nil => simp [alGet] at h
  | cons hd t ih =>
    obtain ⟨k', v'⟩ := hd
    by_cases hk : k' = k
    · rw [alGet, if_pos hk] at h
      rw [alSet, if_pos hk, Option.some_inj.mp h, hk]
    · rw [alGet, if_neg hk] at h
      rw [alSet, if_neg hk, ih h]

theorem alSet_ne_nil {α β : Type} [DecidableEq α] (l : List (α × β)) (k : α) (v : β) :
    alSet k v l ≠ [] := by
  cases l with
  | nil => simp [alSet]
  | cons hd t =>
    obtain ⟨k', v'⟩ := hd
    rw [alSet]
    split <;> simp

/-- Counterexample to C7 as stated: in the finished session `sVoted`,
participant p1 has already voted, yet re-processing its `play_again_vote`
produces an additional observable effect (the `play_again_status`
broadcast is re-sent), so the repeated message is not effect-free. -/
theorem replay_vote_extra_effect_counterexample :
    sVoted.phase = .finished ∧ alGet "p1" sVoted.participants = some part1v ∧
      part1v.wantsPlayAgain = true ∧ (handlePlayAgainVote env0 sVoted "p1").2 ≠ [] := by
  refine ⟨rfl, rfl, rfl, ?_⟩
  have h : (handlePlayAgainVote env0 sVoted "p1").2 =
      [Effect.send 1 (playAgainStatusMsg ["p1"] 2), Effect.send 2 (playAgainStatusMsg ["p1"] 2)] :=
    rfl
  rw [h]
  exact List.cons_ne_nil _ _

/-- C7 (amended): re-sending `play_again_vote` from a participant whose
`wantsPlayAgain` is already true while `finished` (and while some other
participant has not voted) cannot retract the vote and leaves the whole
runtime state unchanged, but it does re-broadcast `play_again_status`
(with the unchanged voter set) rather than having no effect at all. -/
theorem replay_vote_state_noop_but_rebroadcast (e : Env) (s : RuntimeState) (pid : String)
    (p : Participant) (kv : String × Participant)
    (hph : s.phase = .finished) (hget : alGet pid s.participants = some p)
    (hv : p.wantsPlayAgain = true)
    (hkv : kv ∈ s.participants) (hnv : kv.2.wantsPlayAgain = false) :
    handlePlayAgainVote e s pid =
      (s, broadcastToAll s (playAgainStatusMsg (getPlayAgainVoters s) s.participants.length)) := by
  have hvp : { p with wantsPlayAgain := true } = p := by
    cases p
    simp_all
  have hset : alSet pid { p with wantsPlayAgain := true } s.participants = s.participants := by
    rw [hvp]
    exact alSet_get_same hget
  have hs1 : { s with participants := alSet pid { p with wantsPlayAgain := true } s.participants }
      = s := by
    rw [hset]
  unfold handlePlayAgainVote
  rw [if_neg (by simp [hph]), hget]
  dsimp only
  rw [hs1]
  have hall : allParticipantsWantPlayAgain s = false := by
    unfold allParticipantsWantPlayAgain
    split
    · rfl
    · rw [List.all_eq_false]
      exact ⟨kv, hkv, by simp [hnv]⟩
  rw [hall]
  simp
  rw [hset]

/-- Witness for C7 (amended): the concrete re-vote of p1 in `sVoted`
leaves the state unchanged and re-broadcasts the status message to both
open connections. -/
theorem replay_vote_state_noop_but_rebroadcast_witness :
    sVoted.phase = .finished ∧ alGet "p1" sVoted.participants = some part1v ∧
      part1v.wantsPlayAgain = true ∧ ("p2", part2) ∈ sVoted.participants ∧
      part2.wantsPlayAgain = false ∧
      handlePlayAgainVote env0 sVoted "p1" =
        (sVoted,
         [Effect.send 1 (playAgainStatusMsg ["p1"] 2),
          Effect.send 2 (playAgainStatusMsg ["p1"] 2)]) := by
  refine ⟨rfl, rfl, rfl, by decide, rfl, ?_⟩
  have h := replay_vote_state_noop_but_rebroadcast env0 sVoted "p1" part1v ("p2", part2)
    rfl rfl rfl (by decide) rfl
  rw [h]
  rfl

/-- C4: when the last outstanding `play_again_vote` arrives in `finished`,
the runtime calls `onReset` before any `session_reset` send, clears every
participant's `wantsPlayAgain`, sets every `isReady` to that participant's
`isBot`, sets the phase to `waiting`, and broadcasts `session_reset` to the
open registered connections; while some participant has not voted, no reset
happens (phase stays `finished`, `onReset` is not called, no
`session_reset` is sent). -/
theorem last_vote_triggers_ordered_reset (e : Env) (s : RuntimeState) (pid : String)
    (p : Participant) (hph : s.phase = .finished)
    (hget : alGet pid s.participants = some p) :
    ((∀ kv ∈ (voteUpd s pid p).participants, kv.2.wantsPlayAgain = true) →
      (handlePlayAgainVote e s pid).1.phase = .waiting ∧
      (∀ kv ∈ (handlePlayAgainVote e s pid).1.participants,
        kv.2.wantsPlayAgain = false ∧ kv.2.isReady = kv.2.isBot) ∧
      (∃ tr1 tr2, (handlePlayAgainVote e s pid).2 = tr1 ++ Effect.hookReset :: tr2 ∧
        (∀ ef ∈ tr1, ∀ c m, ef = Effect.send c m → typeOf m ≠ some "session_reset") ∧
        (∀ c, c ∈ connKeys s → c ∈ s.openConns →
          Effect.send c (sessionResetMsg e.hooks.onReset) ∈ tr2))) ∧
    ((∃ kv ∈ (voteUpd s pid p).participants, kv.2.wantsPlayAgain = false) →
      (handlePlayAgainVote e s pid).1.phase = .finished ∧
      Effect.hookReset ∉ (handlePlayAgainVote e s pid).2 ∧
      (∀ ef ∈ (handlePlayAgainVote e s pid).2, ∀ c m, ef = Effect.send c m →
        typeOf m ≠ some "session_reset")) := by
  have hunfold : handlePlayAgainVote e s pid =
      (if allParticipantsWantPlayAgain (voteUpd s pid p) then
        ((resetSession e (voteUpd s pid p)).1,
          broadcastToAll (voteUpd s pid p)
            (playAgainStatusMsg (getPlayAgainVoters (voteUpd s pid p))
              (voteUpd s pid p).participants.length) ++ (resetSession e (voteUpd s pid p)).2)
       else
        (voteUpd s pid p,
          broadcastToAll (voteUpd s pid p)
            (playAgainStatusMsg (getPlayAgainVoters (voteUpd s pid p))
              (voteUpd s pid p).participants.length))) := by
    unfold handlePlayAgainVote
    rw [if_neg (by simp [hph]), hget]
    dsimp only
    unfold voteUpd
    split <;> rfl
  constructor
  · intro hall
    have hwant : allParticipantsWantPlayAgain (voteUpd s pid p) = true := by
      unfold allParticipantsWantPlayAgain
      split
      · rename_i hlen
        exact absurd (List.length_eq_zero.mp hlen) (alSet_ne_nil s.participants pid _)
      · rw [List.all_eq_true]
        intro kv hkv
        simpa using hall kv hkv
    rw [hunfold, if_pos hwant]
    unfold resetSession
    dsimp only
    refine ⟨rfl, ?_, ?_⟩
    · intro kv hkv
      rw [List.mem_map] at hkv
      obtain ⟨kv', -, hkv'⟩ := hkv
      rw [← hkv']
      exact ⟨rfl, rfl⟩
    · refine ⟨_, _, rfl, ?_, ?_⟩
      · intro ef hef c m hm
        obtain ⟨c', hc'⟩ := broadcastToAll_shape hef
        rw [hc'] at hm
        have : m = playAgainStatusMsg (getPlayAgainVoters (voteUpd s pid p))
            (voteUpd s pid p).participants.length := by
          injection hm.symm
        rw [this]
        simp [typeOf, alGet, playAgainStatusMsg]
      · intro c hc ho
        exact mem_broadcastToAll hc ho
  · intro hsome
    have hwant : allParticipantsWantPlayAgain (voteUpd s pid p) = false := by
      unfold allParticipantsWantPlayAgain
      split
      · rfl
      · rw [List.all_eq_false]
        obtain ⟨kv, hkv, hnv⟩ := hsome
        exact ⟨kv, hkv, by simp [hnv]⟩
    rw [hunfold, if_neg (by simp [hwant])]
    refine ⟨hph, ?_, ?_⟩
    · intro hmem
      obtain ⟨c', hc'⟩ := broadcastToAll_shape hmem
      exact Effect.noConfusion hc'
    · intro ef hef c m hm
      obtain ⟨c', hc'⟩ := broadcastToAll_shape hef
      rw [hc'] at hm
      have : m = playAgainStatusMsg (getPlayAgainVoters (voteUpd s pid p))
          (voteUpd s pid p).participants.length := by
        injection hm.symm
      rw [this]
      simp [typeOf, alGet, playAgainStatusMsg]

/-- Witness for C4: in `sVoted` (p1 has voted, p2 has not), p2's vote is
the last outstanding one: the session resets to `waiting`, every
participant has `wantsPlayAgain = false` and `isReady = isBot`, the
`onReset` call precedes the `session_reset` broadcast; and in the same
state p1's re-vote (p2 still outstanding) resets nothing. -/
theorem last_vote_triggers_ordered_reset_witness :
    sVoted.phase = .finished ∧ alGet "p2" sVoted.participants = some part2 ∧
      (∀ kv ∈ (voteUpd sVoted "p2" part2).participants, kv.2.wantsPlayAgain = true) ∧
      ((handlePlayAgainVote env0 sVoted "p2").1.phase = .waiting ∧
        (∀ kv ∈ (handlePlayAgainVote env0 sVoted "p2").1.participants,
          kv.2.wantsPlayAgain = false ∧ kv.2.isReady = kv.2.isBot) ∧
        (∃ tr1 tr2, (handlePlayAgainVote env0 sVoted "p2").2 =
            tr1 ++ Effect.hookReset :: tr2 ∧
          (∀ ef ∈ tr1, ∀ c m, ef = Effect.send c m → typeOf m ≠ some "session_reset") ∧
          (∀ c, c ∈ connKeys sVoted → c ∈ sVoted.openConns →
            Effect.send c (sessionResetMsg env0.hooks.onReset) ∈ tr2))) := by
  refine ⟨rfl, rfl, by decide, ?_⟩
  exact (last_vote_triggers_ordered_reset env0 sVoted "p2" part2 rfl rfl).1 (by decide)

-- ============ Ready gate (C3) ============

theorem alSet_length_of_get {α β : Type} [DecidableEq α] {l : List (α × β)} {k : α} {v' : β}
    (v : β) (h : alGet k l = some v') : (alSet k v l).length = l.length := by
  induction l with
  | nil => simp [alGet] at h
  | cons hd t ih =>
    obtain ⟨k', w⟩ := hd
    by_cases hk : k' = k
    · rw [alSet, if_pos hk, List.length_cons, List.length_cons]
    · rw [alGet, if_neg hk] at h
      rw [alSet, if_neg hk, List.length_cons, List.length_cons, ih h]

theorem areAllParticipantsReady_eq_true (s : RuntimeState) :
    areAllParticipantsReady s = true ↔
      2 ≤ s.participants.length ∧ ∀ kv ∈ s.participants, kv.2.isReady = true := by
  unfold areAllParticipantsReady
  split
  · rename_i hl
    constructor
    · intro h
      exact absurd h (by simp)
    · intro ⟨h2, _⟩
      omega
  · rename_i hl
    rw [List.all_eq_true]
    constructor
    · intro hall
      exact ⟨by omega, fun kv hkv => by simpa using hall kv hkv⟩
    · intro ⟨_, hall⟩
      intro kv hkv
      simp [hall kv hkv]

/-- The gating condition of the start transition, read off the state after
the flag update: waiting, exactly two participants, all ready. -/
def StartCond (s1 : RuntimeState) : Prop :=
  s1.phase = .waiting ∧ s1.participants.length = 2 ∧
    ∀ kv ∈ s1.participants, kv.2.isReady = true

theorem checkAndStartSession_spec (e : Env) (s1 : RuntimeState)
    (hlen : s1.participants.length ≤ 2) :
    (StartCond s1 →
      (checkAndStartSession e s1).1.phase = .playing ∧
      Effect.hookStart ∈ (checkAndStartSession e s1).2 ∧
      (∀ c, c ∈ connKeys s1 → c ∈ s1.openConns →
        Effect.send c sessionStartedMsg ∈ (checkAndStartSession e s1).2) ∧
      (e.cfg.tickEnabled = true → Effect.startTick ∈ (checkAndStartSession e s1).2 ∧
        (checkAndStartSession e s1).1.tickOn = true) ∧
      (e.cfg.tickEnabled = false → Effect.startTick ∉ (checkAndStartSession e s1).2)) ∧
    (¬ StartCond s1 → checkAndStartSession e s1 = (s1, [])) := by
  constructor
  · intro ⟨hw, hl2, hready⟩
    have hall : areAllParticipantsReady s1 = true :=
      (areAllParticipantsReady_eq_true s1).mpr ⟨by omega, hready⟩
    unfold checkAndStartSession
    rw [if_neg (by simp [hw]), if_neg (by simp [hall])]
    dsimp only
    by_cases ht : e.cfg.tickEnabled
    · rw [if_pos ht]
      refine ⟨rfl, List.mem_append_left _ (List.mem_cons_self _ _), ?_,
        fun _ => ⟨List.mem_append_right _ (List.mem_singleton.mpr rfl), rfl⟩,
        fun hf => absurd ht (by simp [hf])⟩
      intro c hc ho
      exact List.mem_append_left _ (List.mem_cons_of_mem _ (mem_broadcastToAll hc ho))
    · rw [if_neg ht]
      refine ⟨rfl, List.mem_cons_self _ _, ?_, fun htE => absurd htE ht, fun _ => ?_⟩
      · intro c hc ho
        exact List.mem_cons_of_mem _ (mem_broadcastToAll hc ho)
      · intro hmem
        rw [List.mem_cons] at hmem
        rcases hmem with hmem | hmem
        · exact Effect.noConfusion hmem
        · obtain ⟨c', hc'⟩ := broadcastToAll_shape hmem
          exact Effect.noConfusion hc'
  · intro hnc
    unfold checkAndStartSession
    by_cases hw : s1.phase = .waiting
    · rw [if_neg (by simp [hw])]
      by_cases hall : areAllParticipantsReady s1 = true
      · exfalso
        obtain ⟨h2, hready⟩ := (areAllParticipantsReady_eq_true s1).mp hall
        exact hnc ⟨hw, by omega, hready⟩
      · rw [if_pos (by simpa using hall)]
    · rw [if_pos (by simpa using hw)]

/-- C3: after a `participant_ready` or `bot_identify` is processed for a
bound participant, if the flag-updated state is `waiting` with exactly two
participants all ready, the runtime calls `onSessionStart`, moves to
`playing`, broadcasts `session_started` to every open registered
connection, and starts the tick loop exactly when it is enabled; if any
conjunct fails, the phase is unchanged and none of these effects occur. -/
theorem ready_gate_start_condition (e : Env) (s : RuntimeState) (pid : String)
    (p : Participant) (hlen : s.participants.length ≤ 2)
    (hget : alGet pid s.participants = some p) :
    ((StartCond (readyUpd s pid p) →
      (handleParticipantReady e s pid).1.phase = .playing ∧
      Effect.hookStart ∈ (handleParticipantReady e s pid).2 ∧
      (∀ c, c ∈ connKeys s → c ∈ s.openConns →
        Effect.send c sessionStartedMsg ∈ (handleParticipantReady e s pid).2) ∧
      (e.cfg.tickEnabled = true → Effect.startTick ∈ (handleParticipantReady e s pid).2 ∧
        (handleParticipantReady e s pid).1.tickOn = true) ∧
      (e.cfg.tickEnabled = false → Effect.startTick ∉ (handleParticipantReady e s pid).2)) ∧
     (¬ StartCond (readyUpd s pid p) →
      handleParticipantReady e s pid = (readyUpd s pid p, []))) ∧
    ((StartCond (botUpd s pid p) →
      (handleBotIdentify e s pid).1.phase = .playing ∧
      Effect.hookStart ∈ (handleBotIdentify e s pid).2 ∧
      (∀ c, c ∈ connKeys s → c ∈ s.openConns →
        Effect.send c sessionStartedMsg ∈ (handleBotIdentify e s pid).2) ∧
      (e.cfg.tickEnabled = true → Effect.startTick ∈ (handleBotIdentify e s pid).2 ∧
        (handleBotIdentify e s pid).1.tickOn = true) ∧
      (e.cfg.tickEnabled = false → Effect.startTick ∉ (handleBotIdentify e s pid).2)) ∧
     (¬ StartCond (botUpd s pid p) →
      handleBotIdentify e s pid = (botUpd s pid p, []))) := by
  have hr : handleParticipantReady e s pid = checkAndStartSession e (readyUpd s pid p) := by
    unfold handleParticipantReady readyUpd
    rw [hget]
  have hb : handleBotIdentify e s pid = checkAndStartSession e (botUpd s pid p) := by
    unfold handleBotIdentify botUpd
    rw [hget]
  have hlr : (readyUpd s pid p).participants.length ≤ 2 := by
    unfold readyUpd
    dsimp only
    rw [alSet_length_of_get _ hget]
    exact hlen
  have hlb : (botUpd s pid p).participants.length ≤ 2 := by
    unfold botUpd
    dsimp only
    rw [alSet_length_of_get _ hget]
    exact hlen
  rw [hr, hb]
  exact ⟨checkAndStartSession_spec e (readyUpd s pid p) hlr,
         checkAndStartSession_spec e (botUpd s pid p) hlb⟩

/-- Witness for C3: in `sWaiting` (bot p2 ready, human p1 not), p1's
`participant_ready` satisfies the start condition: the session starts,
`onSessionStart` is called, `session_started` reaches connection 1, and no
tick loop starts because tick is disabled in `env0`. -/
theorem ready_gate_start_condition_witness :
    sWaiting.participants.length ≤ 2 ∧ alGet "p1" sWaiting.participants = some part1u ∧
      StartCond (readyUpd sWaiting "p1" part1u) ∧
      (handleParticipantReady env0 sWaiting "p1").1.phase = .playing ∧
      Effect.hookStart ∈ (handleParticipantReady env0 sWaiting "p1").2 ∧
      Effect.send 1 sessionStartedMsg ∈ (handleParticipantReady env0 sWaiting "p1").2 ∧
      Effect.startTick ∉ (handleParticipantReady env0 sWaiting "p1").2 := by
  have hcond : StartCond (readyUpd sWaiting "p1" part1u) := by
    refine ⟨rfl, rfl, ?_⟩
    decide
  have h := ((ready_gate_start_condition env0 sWaiting "p1" part1u (by decide) rfl).1).1 hcond
  exact ⟨by decide, rfl, hcond, h.1, h.2.1, h.2.2.1 1 (by decide) (by decide),
    h.2.2.2.2 rfl⟩

-- ============ Framework-first parsing (C6) ============

theorem checkAndStartSession_no_hookMsg (e : Env) (s1 : RuntimeState) (m : Obj) (pid : String)
    (ph : SessionPhase) : Effect.hookMsg m pid ph ∉ (checkAndStartSession e s1).2 := by
  unfold checkAndStartSession
  split
  · simp
  · split
    · simp
    · dsimp only
      split
      · intro hmem
        rcases List.mem_append.mp hmem with hmem | hmem
        · rcases List.mem_cons.mp hmem with h | h
          · exact Effect.noConfusion h
          · obtain ⟨c, hc⟩ := broadcastToAll_shape h
            exact Effect.noConfusion hc
        · rw [List.mem_singleton] at hmem
          exact Effect.noConfusion hmem
      · intro hmem
        rcases List.mem_cons.mp hmem with h | h
        · exact Effect.noConfusion h
        · obtain ⟨c, hc⟩ := broadcastToAll_shape h
          exact Effect.noConfusion hc

theorem handleParticipantReady_no_hookMsg (e : Env) (s : RuntimeState) (pid' : String)
    (m : Obj) (pid : String) (ph : SessionPhase) :
    Effect.hookMsg m pid ph ∉ (handleParticipantReady e s pid').2 := by
  unfold handleParticipantReady
  split
  · simp
  · exact checkAndStartSession_no_hookMsg e _ m pid ph

theorem handleBotIdentify_no_hookMsg (e : Env) (s : RuntimeState) (pid' : String)
    (m : Obj) (pid : String) (ph : SessionPhase) :
    Effect.hookMsg m pid ph ∉ (handleBotIdentify e s pid').2 := by
  unfold handleBotIdentify
  split
  · simp
  · exact checkAndStartSession_no_hookMsg e _ m pid ph

theorem handlePlayAgainVote_no_hookMsg (e : Env) (s : RuntimeState) (pid' : String)
    (m : Obj) (pid : String) (ph : SessionPhase) :
    Effect.hookMsg m pid ph ∉ (handlePlayAgainVote e s pid').2 := by
  unfold handlePlayAgainVote
  split
  · simp
  · split
    · simp
    · dsimp only
      split
      · unfold resetSession
        dsimp only
        intro hmem
        rcases List.mem_append.mp hmem with hmem | hmem
        · obtain ⟨c, hc⟩ := broadcastToAll_shape hmem
          exact Effect.noConfusion hc
        · rcases List.mem_cons.mp hmem with h | h
          · exact Effect.noConfusion h
          · obtain ⟨c, hc⟩ := broadcastToAll_shape h
            exact Effect.noConfusion hc
      · intro hmem
        obtain ⟨c, hc⟩ := broadcastToAll_shape hmem
        exact Effect.noConfusion hc

theorem typeOf_tagged (t : String) (rest : Obj) :
    typeOf (("type", Value.vstr t) :: rest) = some t := rfl

/-- C6: the composed client-message schema attempts the framework parse
first: on a kind tag in the framework set {participant_ready, bot_identify,
play_again_vote} the outcome is the framework parse and is independent of
the app schema, and the runtime's `handleMessage` never reaches the app
`onMessage` hook; the app parser is consulted exactly when the framework
parse rejects, which on tagged objects is exactly when the tag is outside
the framework set. -/
theorem framework_parse_first (raw : Obj) :
    (∀ t, typeOf raw = some t → t ∈ frameworkClientTags →
      (∀ a1 a2 : Obj → Option Obj, sessionClientParse a1 raw = sessionClientParse a2 raw) ∧
      (∀ a : Obj → Option Obj, sessionClientParse a raw = frameworkClientParse raw) ∧
      (∀ (e : Env) (a : Obj → Option Obj) (s : RuntimeState) (cid : Nat),
        e.parser = sessionClientParse a →
        ∀ m pid ph, Effect.hookMsg m pid ph ∉ (handleMessage e s cid raw).2)) ∧
    (frameworkClientParse raw = none →
      ∀ a : Obj → Option Obj, sessionClientParse a raw = a raw) ∧
    (∀ t, typeOf raw = some t → t ∉ frameworkClientTags → frameworkClientParse raw = none) := by
  refine ⟨?_, ?_, ?_⟩
  · intro t htype htag
    have hfw : frameworkClientParse raw = some [("type", Value.vstr t)] := by
      unfold frameworkClientParse
      rw [htype]
      dsimp only
      rw [if_pos htag]
    have hsess : ∀ a : Obj → Option Obj,
        sessionClientParse a raw = some [("type", Value.vstr t)] := by
      intro a
      unfold sessionClientParse
      rw [hfw]
    refine ⟨fun a1 a2 => by rw [hsess a1, hsess a2],
      fun a => by rw [hsess a, hfw], ?_⟩
    intro e a s cid he m pid ph
    unfold handleMessage
    rcases hconn : alGet cid s.connections with _ | pid'
    · simp
    · dsimp only
      rw [he, hsess a]
      dsimp only
      have htag' : t = "participant_ready" ∨ t = "bot_identify" ∨ t = "play_again_vote" := by
        simpa [frameworkClientTags] using htag
      rcases htag' with h | h | h
      · subst h
        rw [show handleFrameworkMessage e s pid' [("type", Value.vstr "participant_ready")] =
            some (handleParticipantReady e s pid') from rfl]
        exact handleParticipantReady_no_hookMsg e s pid' m pid ph
      · subst h
        rw [show handleFrameworkMessage e s pid' [("type", Value.vstr "bot_identify")] =
            some (handleBotIdentify e s pid') from rfl]
        exact handleBotIdentify_no_hookMsg e s pid' m pid ph
      · subst h
        rw [show handleFrameworkMessage e s pid' [("type", Value.vstr "play_again_vote")] =
            some (handlePlayAgainVote e s pid') from rfl]
        exact handlePlayAgainVote_no_hookMsg e s pid' m pid ph
  · intro hnone a
    unfold sessionClientParse
    rw [hnone]
  · intro t htype htag
    unfold frameworkClientParse
    rw [htype]
    dsimp only
    rw [if_neg htag]

/-- Witness for C6: a `participant_ready` object with extra fields parses
through the composed schema to the stripped framework message regardless of
the app schema, is consumed by the framework in `handleMessage` (no
`onMessage` hook), while a `wave` object falls through to the app parser. -/
theorem framework_parse_first_witness :
    typeOf [("type", Value.vstr "participant_ready"), ("junk", Value.vnat 1)] =
        some "participant_ready" ∧
      "participant_ready" ∈ frameworkClientTags ∧
      sessionClientParse appParse0 [("type", Value.vstr "participant_ready"),
          ("junk", Value.vnat 1)] =
        frameworkClientParse [("type", Value.vstr "participant_ready"), ("junk", Value.vnat 1)] ∧
      Effect.hookMsg [("type", Value.vstr "wave")] "p1" SessionPhase.waiting ∉
        (handleMessage envC sWaiting 1
          [("type", Value.vstr "participant_ready"), ("junk", Value.vnat 1)]).2 ∧
      frameworkClientParse [("type", Value.vstr "wave")] = none ∧
      sessionClientParse appParse0 [("type", Value.vstr "wave")] =
        appParse0 [("type", Value.vstr "wave")] := by
  have h := framework_parse_first [("type", Value.vstr "participant_ready"),
    ("junk", Value.vnat 1)]
  have h1 := h.1 "participant_ready" rfl (by decide)
  have h2 := framework_parse_first [("type", Value.vstr "wave")]
  exact ⟨rfl, by decide, h1.2.1 appParse0,
    h1.2.2 envC appParse0 sWaiting 1 rfl _ _ _, rfl, h2.2.1 rfl appParse0⟩

-- ============ Welcome message (C8) ============

theorem welcomeMsg_fields (pid : String) (n : Nat) (ph : SessionPhase) (wd : Obj) :
    alGet "type" (welcomeMsg pid n ph wd) = some (.vstr "welcome") ∧
      alGet "participantId" (welcomeMsg pid n ph wd) = some (.vstr pid) ∧
      alGet "participantNumber" (welcomeMsg pid n ph wd) = some (.vnat n) ∧
      alGet "sessionPhase" (welcomeMsg pid n ph wd) = some (.vstr ph.str) :=
  ⟨rfl, rfl, rfl, rfl⟩

/-- Counterexample to C8 as stated: admitting the open socket 7 into the
empty session, the first (and only) message sent to it is a welcome whose
fields are the framework fields plus the hook's `color` field spread at top
level; there is no field named `appData`, so in particular no `appData`
field equal to the `onParticipantJoin` return value. -/
theorem welcome_appData_field_counterexample :
    7 ∈ sOpen.openConns ∧
      (handleConnection env0 sOpen 7).2.2 = some partW ∧
      (handleConnection env0 sOpen 7).2.1 =
        [Effect.send 7 (welcomeMsg "hand-1" 1 .waiting [("color", Value.vnat 7)])] ∧
      env0.hooks.onParticipantJoin partW = [("color", Value.vnat 7)] ∧
      alGet "appData" (welcomeMsg "hand-1" 1 .waiting [("color", Value.vnat 7)]) = none ∧
      alGet "appData" (welcomeMsg "hand-1" 1 .waiting [("color", Value.vnat 7)]) ≠
        some (Value.vobj (env0.hooks.onParticipantJoin partW)) := by
  refine ⟨by decide, rfl, rfl, rfl, rfl, ?_⟩
  intro hc
  exact Option.noConfusion hc

/-- C8 (amended): the first message sent to an admitted (open) connection
is the welcome message, whose object is the framework fields
{ type, participantId, participantNumber, sessionPhase } followed by the
fields of the `onParticipantJoin` return value spread at top level (not
nested under an `appData` field); no further message is sent to that
connection during admission. -/
theorem welcome_first_message_with_spread_data (e : Env) (s : RuntimeState) (cid : Nat)
    (s' : RuntimeState) (tr : List Effect) (p : Participant) (ho : cid ∈ s.openConns)
    (h : handleConnection e s cid = (s', tr, some p)) :
    tr.head? = some (Effect.send cid
        (welcomeMsg p.id p.number s.phase (e.hooks.onParticipantJoin p))) ∧
      (∀ m', Effect.send cid m' ∈ tr.tail → False) ∧
      alGet "type" (welcomeMsg p.id p.number s.phase (e.hooks.onParticipantJoin p)) =
        some (.vstr "welcome") ∧
      alGet "participantId" (welcomeMsg p.id p.number s.phase (e.hooks.onParticipantJoin p)) =
        some (.vstr p.id) ∧
      alGet "participantNumber" (welcomeMsg p.id p.number s.phase (e.hooks.onParticipantJoin p)) =
        some (.vnat p.number) ∧
      alGet "sessionPhase" (welcomeMsg p.id p.number s.phase (e.hooks.onParticipantJoin p)) =
        some (.vstr s.phase.str) := by
  unfold handleConnection at h
  rcases hn : getNextParticipantNumber s with _ | n
  · rw [hn] at h
    dsimp only at h
    have h3 := congrArg (fun x => x.2.2) h
    simp at h3
  · rw [hn] at h
    dsimp only at h
    have hp : ({ id := e.hooks.generateParticipantId n, number := n, isReady := false,
                 isBot := false, wantsPlayAgain := false } : Participant) = p := by
      have h3 := congrArg (fun x => x.2.2) h
      simp only at h3
      exact Option.some_inj.mp h3
    have htr := congrArg (fun x => x.2.1) h
    simp only at htr
    subst hp
    rw [← htr]
    unfold sendTo
    dsimp only
    rw [if_pos ho]
    rw [List.singleton_append]
    refine ⟨rfl, ?_, rfl, rfl, rfl, rfl⟩
    intro m' hm'
    rw [List.tail_cons] at hm'
    obtain ⟨c, hc, hcm⟩ := broadcastToOthers_shape hm'
    exact hc (Effect.send.inj hcm.symm).1

/-- Witness for C8 (amended): admitting socket 7 into the empty session
sends it first (and only) the welcome message with the `color` field of the
hook's return value spread at top level. -/
theorem welcome_first_message_with_spread_data_witness :
    7 ∈ sOpen.openConns ∧
      (handleConnection env0 sOpen 7).2.1.head? = some (Effect.send 7
        (welcomeMsg partW.id partW.number sOpen.phase (env0.hooks.onParticipantJoin partW))) ∧
      (∀ m', Effect.send 7 m' ∈ (handleConnection env0 sOpen 7).2.1.tail → False) := by
  have h := welcome_first_message_with_spread_data env0 sOpen 7
    (handleConnection env0 sOpen 7).1 (handleConnection env0 sOpen 7).2.1 partW
    (by decide) rfl
  exact ⟨by decide, h.1, h.2.1⟩

-- ============ Inactivity monitor (C9) ============

theorem monitorRun_append (cfg : MonitorConfig) (l1 l2 : List MonitorEvent) (m : Monitor) :
    monitorRun cfg (l1 ++ l2) m = monitorRun cfg l2 (monitorRun cfg l1 m) := by
  induction l1 generalizing m with
  | nil => rfl
  | cons ev t ih => rw [List.cons_append, monitorRun, monitorRun, ih]

theorem quietChecks_succ (start c n : Nat) :
    quietChecks start c (n + 1) =
      quietChecks start c n ++ [MonitorEvent.checkEv (start + (n + 1) * c)] := by
  unfold quietChecks
  rw [List.range_succ, List.map_append]
  rfl

theorem quietRun_succ (cfg : MonitorConfig) (start n : Nat) :
    quietRun cfg start (n + 1) =
      monitorCheck cfg (start + (n + 1) * cfg.checkIntervalMs) (quietRun cfg start n) := by
  unfold quietRun
  rw [quietChecks_succ, monitorRun_append]
  rfl

theorem monitorCheck_skip (cfg : MonitorConfig) (now : Nat) (start : Nat)
    (hlt : now - start < cfg.timeoutMs) :
    monitorCheck cfg now (monitorInit start) = monitorInit start := by
  unfold monitorCheck monitorInit
  dsimp only
  rw [if_neg (by simp), if_neg (by simp; omega), if_neg (by simp), if_neg (by simp)]

theorem quietRun_before (cfg : MonitorConfig) (start : Nat) (j : Nat)
    (hj : j * cfg.checkIntervalMs < cfg.timeoutMs) :
    quietRun cfg start j = monitorInit start := by
  induction j with
  | zero => rfl
  | succ n ih =>
    have hn : n * cfg.checkIntervalMs < cfg.timeoutMs := by
      have : n * cfg.checkIntervalMs ≤ (n + 1) * cfg.checkIntervalMs :=
        Nat.mul_le_mul_right _ (by omega)
      omega
    rw [quietRun_succ, ih hn]
    exact monitorCheck_skip cfg _ start (by omega)

theorem monitorCheck_fire_cold (cfg : MonitorConfig) (now : Nat) (start : Nat)
    (hge : cfg.timeoutMs ≤ now - start) :
    monitorCheck cfg now (monitorInit start) =
      { monitorInit start with running := false, fired := 1 } := by
  unfold monitorCheck monitorInit monitorStop
  dsimp only
  rw [if_neg (by simp), if_pos (by simp; omega), if_pos (by simp)]

theorem monitorStop_running (m : Monitor) : (monitorStop m).running = false := by
  unfold monitorStop
  split
  · rfl
  · rename_i h
    simpa using h

theorem monitorStop_fired (m : Monitor) : (monitorStop m).fired = m.fired := by
  unfold monitorStop
  split <;> rfl

theorem monitorStep_inv (cfg : MonitorConfig) (ev : MonitorEvent) (m : Monitor)
    (h1 : m.fired ≤ 1) (h2 : m.fired = 1 → m.running = false) :
    (monitorStep cfg ev m).fired ≤ 1 ∧
      ((monitorStep cfg ev m).fired = 1 → (monitorStep cfg ev m).running = false) := by
  cases ev with
  | activity now => exact ⟨h1, h2⟩
  | connection c now =>
    cases c with
    | true => exact ⟨h1, h2⟩
    | false => exact ⟨h1, h2⟩
  | stopEv =>
    show (monitorStop m).fired ≤ 1 ∧
      ((monitorStop m).fired = 1 → (monitorStop m).running = false)
    refine ⟨?_, fun _ => monitorStop_running m⟩
    rw [monitorStop_fired]
    exact h1
  | checkEv now =>
    show (monitorCheck cfg now m).fired ≤ 1 ∧
      ((monitorCheck cfg now m).fired = 1 → (monitorCheck cfg now m).running = false)
    unfold monitorCheck
    split
    · exact ⟨h1, h2⟩
    · rename_i hrun
      have hr : m.running = true := by
        by_contra hc
        exact hrun (by simpa using hc)
      have hf0 : m.fired = 0 := by
        by_cases hf : m.fired = 1
        · rw [h2 hf] at hr
          exact absurd hr (by simp)
        · omega
      dsimp only
      split
      · refine ⟨?_, fun _ => monitorStop_running m⟩
        show m.fired + 1 ≤ 1
        omega
      · split
        · refine ⟨?_, fun _ => monitorStop_running m⟩
          show m.fired + 1 ≤ 1
          omega
        · split
          · refine ⟨?_, fun _ => monitorStop_running m⟩
            show m.fired + 1 ≤ 1
            omega
          · exact ⟨h1, h2⟩

theorem monitorRun_inv (cfg : MonitorConfig) (evs : List MonitorEvent) (m : Monitor)
    (h1 : m.fired ≤ 1) (h2 : m.fired = 1 → m.running = false) :
    (monitorRun cfg evs m).fired ≤ 1 ∧
      ((monitorRun cfg evs m).fired = 1 → (monitorRun cfg evs m).running = false) := by
  induction evs generalizing m with
  | nil => exact ⟨h1, h2⟩
  | cons ev t ih =>
    obtain ⟨g1, g2⟩ := monitorStep_inv cfg ev m h1 h2
    exact ih (monitorStep cfg ev m) g1 g2

theorem monitorCheck_stopped (cfg : MonitorConfig) (now : Nat) (m : Monitor)
    (h : m.running = false) : monitorCheck cfg now m = m := by
  unfold monitorCheck
  rw [if_pos (by simp [h])]

/-- C9: with timeout `T` and check interval `C`, a monitor that never
records activity, connections or disconnections fires its shutdown callback
exactly at the first periodic check at time `start + k·C` with
`T ≤ k·C ≤ T + C` (no earlier check fires, every later state has it fired
exactly once and the checking stopped); and over any event sequence
whatsoever the callback fires at most once, the first firing stopping the
periodic checks. -/
theorem inactivity_monitor_fires_once_within_window (T C start : Nat)
    (hT : 0 < T) (hC : 0 < C) :
    (∃ k, 1 ≤ k ∧ T ≤ k * C ∧ k * C ≤ T + C ∧
      (∀ j, j < k → (quietRun ⟨T, C⟩ start j).fired = 0) ∧
      (∀ n, k ≤ n → (quietRun ⟨T, C⟩ start n).fired = 1 ∧
        (quietRun ⟨T, C⟩ start n).running = false)) ∧
    (∀ evs : List MonitorEvent,
      (monitorRun ⟨T, C⟩ evs (monitorInit start)).fired ≤ 1 ∧
      ((monitorRun ⟨T, C⟩ evs (monitorInit start)).fired = 1 →
        (monitorRun ⟨T, C⟩ evs (monitorInit start)).running = false)) := by
  constructor
  · have hex : ∃ k, T ≤ k * C := ⟨T, Nat.le_mul_of_pos_right T hC⟩
    obtain ⟨k₀, hk1, hkT, hkTC, hjlt⟩ :
        ∃ k, 1 ≤ k ∧ T ≤ k * C ∧ k * C ≤ T + C ∧ ∀ j, j < k → j * C < T := by
      refine ⟨Nat.find hex, ?_, Nat.find_spec hex, ?_, ?_⟩
      · rcases Nat.eq_zero_or_pos (Nat.find hex) with h0 | h0
        · have hs := Nat.find_spec hex
          rw [h0] at hs
          simp at hs
          omega
        · exact h0
      · rcases hfk : Nat.find hex with _ | m
        · have hs := Nat.find_spec hex
          rw [hfk] at hs
          simp at hs
          omega
        · have hm : ¬ T ≤ m * C := Nat.find_min hex (by omega)
          have hsm : (m + 1) * C = m * C + C := Nat.succ_mul m C
          have hs := Nat.find_spec hex
          rw [hfk] at hs
          omega
      · intro j hj
        have := Nat.find_min hex hj
        omega
    have hfire : quietRun ⟨T, C⟩ start k₀ =
        { monitorInit start with running := false, fired := 1 } := by
      rcases hk0 : k₀ with _ | m
      · omega
      · rw [hk0] at hkT
        rw [quietRun_succ, quietRun_before ⟨T, C⟩ start m (hjlt m (by omega))]
        refine monitorCheck_fire_cold ⟨T, C⟩ _ start ?_
        simp only [monitorInit]
        omega
    refine ⟨k₀, hk1, hkT, hkTC, ?_, ?_⟩
    · intro j hj
      rw [quietRun_before ⟨T, C⟩ start j (hjlt j hj)]
      rfl
    · intro n
      induction n with
      | zero =>
        intro h0
        omega
      | succ n' ih =>
        intro hsn
        by_cases hn' : k₀ ≤ n'
        · have hprev := ih hn'
          rw [quietRun_succ, monitorCheck_stopped ⟨T, C⟩ _ _ hprev.2]
          exact hprev
        · have hEq : n' + 1 = k₀ := by omega
          rw [hEq, hfire]
          exact ⟨rfl, rfl⟩
  · intro evs
    exact monitorRun_inv ⟨T, C⟩ evs (monitorInit start) (by simp [monitorInit])
      (by simp [monitorInit])

/-- Witness for C9: with `T = 5000`, `C = 1000`, `start = 0`, the window
and firing behaviour hold (the claim's hypotheses are satisfied at this
concrete configuration). -/
theorem inactivity_monitor_fires_once_within_window_witness :
    (0 : Nat) < 5000 ∧ (0 : Nat) < 1000 ∧
      ((∃ k, 1 ≤ k ∧ 5000 ≤ k * 1000 ∧ k * 1000 ≤ 5000 + 1000 ∧
        (∀ j, j < k → (quietRun ⟨5000, 1000⟩ 0 j).fired = 0) ∧
        (∀ n, k ≤ n → (quietRun ⟨5000, 1000⟩ 0 n).fired = 1 ∧
          (quietRun ⟨5000, 1000⟩ 0 n).running = false)) ∧
      (∀ evs : List MonitorEvent,
        (monitorRun ⟨5000, 1000⟩ evs (monitorInit 0)).fired ≤ 1 ∧
        ((monitorRun ⟨5000, 1000⟩ evs (monitorInit 0)).fired = 1 →
          (monitorRun ⟨5000, 1000⟩ evs (monitorInit 0)).running = false))) :=
  ⟨by decide, by decide,
    inactivity_monitor_fires_once_within_window 5000 1000 0 (by decide) (by decide)⟩

end GestureApp
